import Mathlib

/-!
Shallow embedding of `src/keymatch.ts` (the `keymatch` accelerator matcher)
together with theorems checking the specification's claims about it.

The TypeScript module depends on one external collaborator, `isMac()` (the
Platform Oracle).  Every embedded function that consults it takes an explicit
`isMac : Bool` argument instead.

JavaScript strings are modelled as Lean `String`s.  `toLowerCase()` is
modelled by `jsToLower`, a character-wise map of `Char.toLower` (which agrees
with JavaScript on the ASCII vocabulary used by the matcher, and is the
identity on characters that are already lower case, such as a composed key
like the o-slash character).  `split('+')` is `jsSplit`, which has the same
semantics (never returns an empty list; a trailing separator yields a
trailing empty segment).  `trim()` is `jsTrim`.

The alias-table read `keyMap[normalized]` in `normalizeKey` is a JavaScript
property lookup on a plain object literal, so it traverses the prototype
chain: besides the five own entries, the inherited `Object.prototype`
members (`constructor`, `__proto__`, ...) are found, and they are truthy
non-string values.  `keyMapLookup`, `normalizeKeyJs`, `normalizedEventKeyJs`
and `keymatchJs` model this faithfully over the `JsValue` type.  `keyMap`,
`normalizeKey`, `normalizedEventKey` and `keymatch` are the string-valued
own-property restriction of the same functions; `normalizeKeyJs_agrees` and
`keymatchJs_agrees` prove the two models agree whenever the lower-cased
event key is not an `Object.prototype` property name, which covers every
event the claims about the restricted model quantify over concretely.
-/

/-- Model of JavaScript `s.toLowerCase()`: lower-case every character. -/
def jsToLower (s : String) : String :=
  ⟨s.data.map Char.toLower⟩

/-- Model of JavaScript `s.trim()`: remove leading and trailing whitespace
(the whitespace class is `Char.isWhitespace`, which covers the whitespace
actually appearing in accelerator strings). -/
def jsTrim (s : String) : String :=
  ⟨((s.data.dropWhile Char.isWhitespace).reverse.dropWhile Char.isWhitespace).reverse⟩

/-- Model of JavaScript `s.split(sep)` for a one-character separator, on
character lists: splitting the empty string yields `[[]]`, a leading,
trailing or doubled separator yields empty segments, and the segments never
contain the separator. -/
def jsSplitChar (sep : Char) : List Char → List (List Char)
  | [] => [[]]
  | c :: cs =>
    if c = sep then
      [] :: jsSplitChar sep cs
    else
      match jsSplitChar sep cs with
      | [] => [[c]]
      | t :: ts => (c :: t) :: ts

/-- Model of JavaScript `s.split(sep)` for a one-character separator. -/
def jsSplit (s : String) (sep : Char) : List String :=
  (jsSplitChar sep s.data).map fun l => ⟨l⟩

/-- A KeyboardEvent, restricted to the fields `keymatch` consumes.
`code` is accessed in the source as `(event as any).code : string | undefined`,
hence an `Option`; the other fields are total per the DOM type.  The defaults
mirror the `?? false` defaults of the test suite's event builder and are used
only to abbreviate concrete events in theorem statements. -/
structure KeyboardEvent where
  key : String
  code : Option String := none
  ctrlKey : Bool := false
  metaKey : Bool := false
  altKey : Bool := false
  shiftKey : Bool := false
deriving DecidableEq, Repr

/-- The record returned by `parseMatchString`:
`{ ctrl, alt, shift, meta, key }`. -/
structure ParsedAccelerator where
  ctrl : Bool
  alt : Bool
  shift : Bool
  meta : Bool
  key : String
deriving DecidableEq, Repr

/-- One iteration of the `switch (modifier)` loop body of `parseMatchString`
(source lines 20-54).  The `case` fall-through pairs become disjunctions; the
final `acc` is the absent `default` branch (unrecognized tokens are ignored). -/
def applyModifier (isMac : Bool) (acc : ParsedAccelerator) (modifier : String) :
    ParsedAccelerator :=
  if modifier = "cmd" ∨ modifier = "command" then
    { acc with meta := true }
  else if modifier = "ctrl" ∨ modifier = "control" then
    { acc with ctrl := true }
  else if modifier = "cmdorctrl" ∨ modifier = "commandorcontrol" then
    (if isMac then { acc with meta := true } else { acc with ctrl := true })
  else if modifier = "alt" then
    { acc with alt := true }
  else if modifier = "option" then
    (if isMac then { acc with alt := true } else acc)
  else if modifier = "shift" then
    { acc with shift := true }
  else if modifier = "meta" ∨ modifier = "super" then
    { acc with meta := true }
  else
    acc

/-- `parseMatchString` (source lines 6-57).
JS `!matchString?.trim()` is the blank test (the argument is a `string`, so
only emptiness after trimming matters).  `parts` is never empty, so
`parts[parts.length - 1]?.toLowerCase()` never hits the optional chain;
`(parts.getLast?.getD "")` models it.  `!key` on the lower-cased last segment
is the emptiness test guarding the `throw`.  The mutable `ctrl/alt/shift/meta`
flags threaded through the `for` loop become a `List.foldl` of
`applyModifier`. -/
def parseMatchString (isMac : Bool) (matchString : String) :
    Except String ParsedAccelerator :=
  if jsTrim matchString = "" then
    .ok { ctrl := false, alt := false, shift := false, meta := false, key := "" }
  else
    let parts := jsSplit matchString '+'
    let key := jsToLower ((parts.getLast?).getD "")
    if key = "" then
      .error ("Invalid accelerator: " ++ matchString)
    else
      let modifierParts := parts.dropLast.map jsToLower
      .ok (modifierParts.foldl (applyModifier isMac)
        { ctrl := false, alt := false, shift := false, meta := false, key := key })

/-- The five own entries of the `keyMap` alias table of `normalizeKey`
(source lines 63-70), as an own-property lookup.  A JS property read on the
object literal also reaches the inherited `Object.prototype` members;
`keyMapLookup` below models that full lookup, and agrees with this
own-property view away from the prototype property names. -/
def keyMap (normalized : String) : Option String :=
  if normalized = " " then some "space"
  else if normalized = "arrowup" then some "up"
  else if normalized = "arrowdown" then some "down"
  else if normalized = "arrowleft" then some "left"
  else if normalized = "arrowright" then some "right"
  else none

/-- `normalizeKey` (source lines 62-74), restricted to own properties of the
alias table: the `Option.getD` renders `keyMap[normalized] || normalized`
under that restriction (all five own values are truthy non-empty strings).
`normalizeKeyJs` below is the faithful version including the prototype
chain; `normalizeKeyJs_agrees` proves this restriction exact whenever the
lower-cased key is not an `Object.prototype` property name. -/
def normalizeKey (key : String) : String :=
  let normalized := jsToLower key
  (keyMap normalized).getD normalized

/-- The regex test `/^Key[A-Z]$/` fused with the slice `code.slice(3)`:
returns the single upper-case letter following the `Key` prefix when the
code has exactly that shape, and `none` otherwise. -/
def letterCodeChar : List Char → Option Char
  | ['K', 'e', 'y', c] => if 'A' ≤ c ∧ c ≤ 'Z' then some c else none
  | _ => none

/-- The regex test `/^Digit[0-9]$/` fused with the slice `code.slice(5)`:
returns the single digit following the `Digit` prefix when the code has
exactly that shape, and `none` otherwise. -/
def digitCodeChar : List Char → Option Char
  | ['D', 'i', 'g', 'i', 't', c] => if '0' ≤ c ∧ c ≤ '9' then some c else none
  | _ => none

/-- `normalizedEventKey` (source lines 81-97).  The JS truthiness guard
`if (code)` also excludes the empty string, but an empty string fails both
regex tests and falls through to `normalizeKey(event.key)` either way, so the
`Option` match is an exact model.  `code.slice(3).toLowerCase()` on a `KeyX`
match is the lower-cased letter; `code.slice(5)` on a `DigitN` match is the
digit. -/
def normalizedEventKey (event : KeyboardEvent) : String :=
  match event.code with
  | some code =>
    (match letterCodeChar code.data with
     | some c => ⟨[c.toLower]⟩
     | none =>
       match digitCodeChar code.data with
       | some c => ⟨[c]⟩
       | none => normalizeKey event.key)
  | none => normalizeKey event.key

/-- `keymatch` (source lines 110-118).  The `throw` escaping `keymatch` when
`parseMatchString` throws is the propagated `.error`. -/
def keymatch (isMac : Bool) (event : KeyboardEvent) (matchString : String) :
    Except String Bool :=
  match parseMatchString isMac matchString with
  | .error e => .error e
  | .ok p =>
    .ok (decide (normalizedEventKey event = p.key) &&
      (event.ctrlKey == p.ctrl) &&
      (event.altKey == p.alt) &&
      (event.shiftKey == p.shift) &&
      (event.metaKey == p.meta))

instance {ε α : Type} [DecidableEq ε] [DecidableEq α] : DecidableEq (Except ε α) := fun a b =>
  match a, b with
  | .ok x, .ok y => if h : x = y then .isTrue (by rw [h]) else .isFalse (by simp [h])
  | .error x, .error y => if h : x = y then .isTrue (by rw [h]) else .isFalse (by simp [h])
  | .ok _, .error _ => .isFalse (by simp)
  | .error _, .ok _ => .isFalse (by simp)

/-- A JavaScript value as it flows out of the `keyMap[normalized]` property
read: a string, a truthy non-string value inherited from `Object.prototype`
(tagged with the property name that produced it, e.g. the `Object` function
for `constructor` and the prototype object itself for the `__proto__`
accessor), or `undefined`. -/
inductive JsValue where
  | str : String → JsValue
  | protoValue : String → JsValue
  | undefined : JsValue
deriving DecidableEq, Repr

/-- JavaScript truthiness of the values above: a string is truthy iff it is
non-empty; the inherited prototype members are functions or objects, hence
truthy; `undefined` is falsy. -/
def JsValue.truthy : JsValue → Bool
  | .str s => !(s == "")
  | .protoValue _ => true
  | .undefined => false

/-- Whether a JavaScript value is a string. -/
def JsValue.isString : JsValue → Bool
  | .str _ => true
  | _ => false

/-- JS strict equality `x === k` between the normalizer's result and the
parsed base key, which is always a string: true exactly for a string with
the same characters; a non-string value or `undefined` is never strictly
equal to a string. -/
def JsValue.strictEqStr : JsValue → String → Bool
  | .str s, t => s == t
  | _, _ => false

/-- The property names a plain object literal inherits from
`Object.prototype` (all of them hold truthy non-string values: methods, or
objects through the `__proto__` accessor). -/
def objectPrototypeProps : List String :=
  ["constructor", "hasOwnProperty", "isPrototypeOf", "propertyIsEnumerable",
   "toLocaleString", "toString", "valueOf", "__defineGetter__",
   "__defineSetter__", "__lookupGetter__", "__lookupSetter__", "__proto__"]

/-- Faithful model of the JS property read `keyMap[p]` (source line 73): the
five own entries of the object literal first, then the prototype chain —
`Object.prototype` property names yield truthy non-string inherited values —
and `undefined` for everything else. -/
def keyMapLookup (p : String) : JsValue :=
  if p = " " then .str "space"
  else if p = "arrowup" then .str "up"
  else if p = "arrowdown" then .str "down"
  else if p = "arrowleft" then .str "left"
  else if p = "arrowright" then .str "right"
  else if p ∈ objectPrototypeProps then .protoValue p
  else .undefined

/-- Faithful model of `normalizeKey` (source lines 62-74) as executed by a
JavaScript engine: `keyMap[normalized] || normalized` returns the looked-up
value when truthy — including the inherited non-string prototype members —
and the lower-cased key otherwise. -/
def normalizeKeyJs (key : String) : JsValue :=
  let normalized := jsToLower key
  let v := keyMapLookup normalized
  if v.truthy then v else .str normalized

/-- Faithful model of `normalizedEventKey` (source lines 81-97) over
JavaScript values: the letter and digit code paths produce strings; the
fallback is the faithful `normalizeKeyJs`. -/
def normalizedEventKeyJs (event : KeyboardEvent) : JsValue :=
  match event.code with
  | some code =>
    (match letterCodeChar code.data with
     | some c => .str ⟨[c.toLower]⟩
     | none =>
       match digitCodeChar code.data with
       | some c => .str ⟨[c]⟩
       | none => normalizeKeyJs event.key)
  | none => normalizeKeyJs event.key

/-- Faithful model of `keymatch` (source lines 110-118) over the
JavaScript-value normalizer, with `===` against the parsed base key as
`JsValue.strictEqStr`. -/
def keymatchJs (isMac : Bool) (event : KeyboardEvent) (matchString : String) :
    Except String Bool :=
  match parseMatchString isMac matchString with
  | .error e => .error e
  | .ok p =>
    .ok ((normalizedEventKeyJs event).strictEqStr p.key &&
      (event.ctrlKey == p.ctrl) &&
      (event.altKey == p.alt) &&
      (event.shiftKey == p.shift) &&
      (event.metaKey == p.meta))

/-- Claim C1: for every event and every accelerator string that parses
without error, keymatch returns true if and only if the normalized event key
equals the parsed base key and each of the four modifier flags of the event
is exactly equal to the corresponding parsed requirement; in particular an
event with an extra, unrequested modifier pressed never matches. -/
theorem keymatch_iff_exact_equality (isMac : Bool) (event : KeyboardEvent)
    (s : String) (p : ParsedAccelerator)
    (h : parseMatchString isMac s = .ok p) :
    keymatch isMac event s = .ok true ↔
      (normalizedEventKey event = p.key ∧ event.ctrlKey = p.ctrl ∧
       event.altKey = p.alt ∧ event.shiftKey = p.shift ∧
       event.metaKey = p.meta) := by
  simp [keymatch, h, Bool.and_eq_true, and_assoc]

theorem keymatch_iff_exact_equality_witness :
    keymatch true ({ key := "k", metaKey := true }) "CmdOrCtrl+K" = .ok true :=
  (keymatch_iff_exact_equality true ({ key := "k", metaKey := true }) "CmdOrCtrl+K"
    ({ ctrl := false, alt := false, shift := false, meta := true, key := "k" })
    (by decide)).mpr (by decide)

/-- Claim C2: the cmdorctrl / commandorcontrol modifier token (matched after
lower-casing, hence case-insensitively) sets the meta requirement on a
macOS-like platform and the control requirement otherwise, never both; and
the four concrete keymatch outcomes for CmdOrCtrl+K on the two platforms. -/
theorem cmdorctrl_resolves_by_platform (b : Bool) (acc : ParsedAccelerator) :
    (applyModifier b acc "cmdorctrl" =
      (if b then { acc with meta := true } else { acc with ctrl := true })) ∧
    (applyModifier b acc "commandorcontrol" =
      (if b then { acc with meta := true } else { acc with ctrl := true })) ∧
    parseMatchString b "CmdOrCtrl+K" =
      .ok { ctrl := !b, alt := false, shift := false, meta := b, key := "k" } ∧
    keymatch true ({ key := "k", metaKey := true }) "CmdOrCtrl+K" = .ok true ∧
    keymatch true ({ key := "k", ctrlKey := true }) "CmdOrCtrl+K" = .ok false ∧
    keymatch false ({ key := "k", ctrlKey := true }) "CmdOrCtrl+K" = .ok true ∧
    keymatch false ({ key := "k", metaKey := true }) "CmdOrCtrl+K" = .ok false := by
  cases b <;>
    exact ⟨rfl, rfl, by decide, by decide, by decide, by decide, by decide⟩

/-- Claim C3: on a non-macOS-like platform the option token contributes no
requirement, so Option+K reduces to a plain K accelerator requiring alt to be
false, and any event with alt pressed fails to match it; on a macOS-like
platform the option token sets the alt requirement. -/
theorem option_token_platform_gating (event : KeyboardEvent)
    (h : event.altKey = true) :
    keymatch false event "Option+K" = .ok false ∧
    parseMatchString false "Option+K" =
      .ok { ctrl := false, alt := false, shift := false, meta := false, key := "k" } ∧
    parseMatchString true "Option+K" =
      .ok { ctrl := false, alt := true, shift := false, meta := false, key := "k" } ∧
    (∀ acc, applyModifier false acc "option" = acc) ∧
    (∀ acc, applyModifier true acc "option" = { acc with alt := true }) := by
  refine ⟨?_, by decide, by decide, fun acc => rfl, fun acc => rfl⟩
  have hp : parseMatchString false "Option+K" =
      .ok { ctrl := false, alt := false, shift := false, meta := false, key := "k" } := by
    decide
  simp [keymatch, hp, h]

theorem option_token_platform_gating_witness :
    keymatch false ({ key := "k", altKey := true }) "Option+K" = .ok false :=
  (option_token_platform_gating ({ key := "k", altKey := true }) rfl).1

/-- Claim C4, counterexample: the claim says keymatch of the empty
accelerator string is false for every event, but the degenerate event whose
logical key is the empty string and which carries no code normalizes to the
empty key, equal to the empty parsed base key, and with all modifier flags
false it matches the empty accelerator. -/
theorem empty_accelerator_matches_empty_key_event :
    keymatch false ({ key := "" }) "" = .ok true := by
  decide

/-- Claim C4, amended: parsing a blank accelerator string yields all-false
modifier requirements and the empty base key, and keymatch of the empty
accelerator string is false for every event whose normalized key is
non-empty. -/
theorem blank_accelerator_parse_and_no_match (isMac : Bool) (s : String)
    (event : KeyboardEvent) (hs : jsTrim s = "")
    (hk : normalizedEventKey event ≠ "") :
    parseMatchString isMac s =
      .ok { ctrl := false, alt := false, shift := false, meta := false, key := "" } ∧
    keymatch isMac event "" = .ok false := by
  have hblank : jsTrim "" = "" := by decide
  constructor
  · simp [parseMatchString, hs]
  · have hp : parseMatchString isMac "" =
        .ok { ctrl := false, alt := false, shift := false, meta := false, key := "" } := by
      simp [parseMatchString, hblank]
    simp [keymatch, hp, hk]

theorem blank_accelerator_parse_and_no_match_witness :
    parseMatchString true "  " =
      .ok { ctrl := false, alt := false, shift := false, meta := false, key := "" } ∧
    keymatch true ({ key := "a" }) "" = .ok false :=
  blank_accelerator_parse_and_no_match true "  " ({ key := "a" })
    (by decide) (by decide)

/-- Claim C6: when the event's code identifies a digit position (the fixed
prefix Digit followed by exactly one digit), the normalized event key is that
digit character, overriding the reported logical key; concretely the
Shift-modified symbol event with key "!" and code Digit1 matches Shift+1 on
either platform. -/
theorem digit_code_overrides_reported_key (event : KeyboardEvent)
    (c : String) (d : Char) (hc : event.code = some c)
    (hd : c.data = ['D', 'i', 'g', 'i', 't', d])
    (h0 : '0' ≤ d) (h9 : d ≤ '9') :
    normalizedEventKey event = ⟨[d]⟩ ∧
    (∀ b, keymatch b ({ key := "!", code := some "Digit1", shiftKey := true })
      "Shift+1" = .ok true) := by
  refine ⟨?_, fun b => by cases b <;> decide⟩
  have hl : letterCodeChar c.data = none := by rw [hd]; exact rfl
  have hdc : digitCodeChar c.data = some d := by
    rw [hd]; simp [digitCodeChar, h0, h9]
  simp [normalizedEventKey, hc, hl, hdc]

theorem digit_code_overrides_reported_key_witness :
    normalizedEventKey ({ key := "!", code := some "Digit1", shiftKey := true }) =
      ⟨['1']⟩ :=
  (digit_code_overrides_reported_key
    ({ key := "!", code := some "Digit1", shiftKey := true }) "Digit1" '1'
    rfl (by decide) (by decide) (by decide)).1

/-- Claim C7: when the event's code identifies a letter position (the fixed
four-character shape: the prefix Key followed by exactly one upper-case
letter), the normalized event key is that letter lower-cased, taking
precedence over the reported logical key; concretely the macOS composed
event with key "ø" and code KeyO matches both Alt+O and Option+O on a
macOS-like platform. -/
theorem letter_code_overrides_reported_key (event : KeyboardEvent)
    (c : String) (u : Char) (hc : event.code = some c)
    (hu : c.data = ['K', 'e', 'y', u]) (hA : 'A' ≤ u) (hZ : u ≤ 'Z') :
    normalizedEventKey event = ⟨[u.toLower]⟩ ∧
    keymatch true ({ key := "ø", code := some "KeyO", altKey := true })
      "Alt+O" = .ok true ∧
    keymatch true ({ key := "ø", code := some "KeyO", altKey := true })
      "Option+O" = .ok true := by
  refine ⟨?_, by decide, by decide⟩
  have hl : letterCodeChar c.data = some u := by
    rw [hu]; simp [letterCodeChar, hA, hZ]
  simp [normalizedEventKey, hc, hl]

theorem letter_code_overrides_reported_key_witness :
    normalizedEventKey ({ key := "ø", code := some "KeyO", altKey := true }) =
      ⟨['O'.toLower]⟩ :=
  (letter_code_overrides_reported_key
    ({ key := "ø", code := some "KeyO", altKey := true }) "KeyO" 'O'
    rfl (by decide) (by decide) (by decide)).1

theorem jsToLower_eq_empty_iff (s : String) : jsToLower s = "" ↔ s = "" := by
  constructor
  · intro h
    have hd : s.data.map Char.toLower = [] := congrArg String.data h
    have h2 : s.data = [] := List.map_eq_nil_iff.mp hd
    cases s
    simp_all
  · rintro rfl
    rfl

theorem parse_error_characterization (isMac : Bool) (s : String) :
    (∃ e, parseMatchString isMac s = .error e) ↔
      (jsTrim s ≠ "" ∧ ((jsSplit s '+').getLast?).getD "" = "") := by
  unfold parseMatchString
  by_cases hb : jsTrim s = ""
  · simp [hb]
  · by_cases hk : jsToLower (((jsSplit s '+').getLast?).getD "") = ""
    · have h0 : jsToLower "" = "" := rfl
      simp [hb, (jsToLower_eq_empty_iff _).mp hk, h0]
    · have hne : ((jsSplit s '+').getLast?).getD "" ≠ "" :=
        fun h => hk ((jsToLower_eq_empty_iff _).mpr h)
      simp [hb, hk, hne]

/-- Claim C5: keymatch signals an invalid-accelerator error if and only if
the accelerator string is non-blank but splitting on the plus separator
yields an empty last segment; every other input, including unrecognized
modifier tokens, unknown base key names and blank strings, produces a
boolean result without raising. -/
theorem error_iff_nonblank_empty_last_segment (isMac : Bool)
    (event : KeyboardEvent) (s : String) :
    (∃ e, keymatch isMac event s = .error e) ↔
      (jsTrim s ≠ "" ∧ ((jsSplit s '+').getLast?).getD "" = "") := by
  rw [← parse_error_characterization isMac s]
  unfold keymatch
  cases hp : parseMatchString isMac s <;> simp [hp]

/-- Whether one modifier token sets the control requirement, written with the
same branch structure as applyModifier. -/
def setsCtrl (isMac : Bool) (m : String) : Bool :=
  if m = "cmd" ∨ m = "command" then false
  else if m = "ctrl" ∨ m = "control" then true
  else if m = "cmdorctrl" ∨ m = "commandorcontrol" then !isMac
  else if m = "alt" then false
  else if m = "option" then false
  else if m = "shift" then false
  else if m = "meta" ∨ m = "super" then false
  else false

/-- Whether one modifier token sets the alt requirement. -/
def setsAlt (isMac : Bool) (m : String) : Bool :=
  if m = "cmd" ∨ m = "command" then false
  else if m = "ctrl" ∨ m = "control" then false
  else if m = "cmdorctrl" ∨ m = "commandorcontrol" then false
  else if m = "alt" then true
  else if m = "option" then isMac
  else if m = "shift" then false
  else if m = "meta" ∨ m = "super" then false
  else false

/-- Whether one modifier token sets the shift requirement (the platform
argument is unused but kept for uniformity with the other three). -/
def setsShift (_isMac : Bool) (m : String) : Bool :=
  if m = "cmd" ∨ m = "command" then false
  else if m = "ctrl" ∨ m = "control" then false
  else if m = "cmdorctrl" ∨ m = "commandorcontrol" then false
  else if m = "alt" then false
  else if m = "option" then false
  else if m = "shift" then true
  else if m = "meta" ∨ m = "super" then false
  else false

/-- Whether one modifier token sets the meta requirement. -/
def setsMeta (isMac : Bool) (m : String) : Bool :=
  if m = "cmd" ∨ m = "command" then true
  else if m = "ctrl" ∨ m = "control" then false
  else if m = "cmdorctrl" ∨ m = "commandorcontrol" then isMac
  else if m = "alt" then false
  else if m = "option" then false
  else if m = "shift" then false
  else if m = "meta" ∨ m = "super" then true
  else false

theorem applyModifier_eq (b : Bool) (acc : ParsedAccelerator) (m : String) :
    applyModifier b acc m =
      { ctrl := acc.ctrl || setsCtrl b m, alt := acc.alt || setsAlt b m,
        shift := acc.shift || setsShift b m, meta := acc.meta || setsMeta b m,
        key := acc.key } := by
  cases b <;>
    (unfold applyModifier setsCtrl setsAlt setsShift setsMeta
     split_ifs <;> simp_all)

theorem foldl_applyModifier (b : Bool) (l : List String)
    (acc : ParsedAccelerator) :
    l.foldl (applyModifier b) acc =
      { ctrl := acc.ctrl || l.any (setsCtrl b), alt := acc.alt || l.any (setsAlt b),
        shift := acc.shift || l.any (setsShift b),
        meta := acc.meta || l.any (setsMeta b), key := acc.key } := by
  induction l generalizing acc with
  | nil => simp
  | cons m t ih =>
    simp [List.foldl_cons, ih, applyModifier_eq, Bool.or_assoc]

theorem any_congr_of_mem_iff {l1 l2 : List String}
    (h : ∀ m, m ∈ l1 ↔ m ∈ l2) (p : String → Bool) : l1.any p = l2.any p := by
  rw [Bool.eq_iff_iff]
  simp only [List.any_eq_true]
  constructor
  · rintro ⟨m, hm, hp⟩
    exact ⟨m, (h m).mp hm, hp⟩
  · rintro ⟨m, hm, hp⟩
    exact ⟨m, (h m).mpr hm, hp⟩

theorem mem_map_iff_of_mem_iff {l1 l2 : List String}
    (h : ∀ m, m ∈ l1 ↔ m ∈ l2) (f : String → String) :
    ∀ m, m ∈ l1.map f ↔ m ∈ l2.map f := by
  intro m
  simp only [List.mem_map]
  constructor
  · rintro ⟨a, ha, rfl⟩
    exact ⟨a, (h a).mp ha, rfl⟩
  · rintro ⟨a, ha, rfl⟩
    exact ⟨a, (h a).mpr ha, rfl⟩

/-- Claim C10: parsing is insensitive to the order and multiplicity of
modifier tokens: two non-blank accelerator strings with the same last
segment (which parses to a non-empty base key, hence without error) whose
modifier-token segments contain the same tokens, regardless of order or
repetition, parse to the same record and match exactly the same events
under the same platform answer. -/
theorem parse_insensitive_to_modifier_multiset (isMac : Bool) (s1 s2 : String)
    (hb1 : jsTrim s1 ≠ "") (hb2 : jsTrim s2 ≠ "")
    (hkey : ((jsSplit s1 '+').getLast?).getD "" = ((jsSplit s2 '+').getLast?).getD "")
    (hk : jsToLower (((jsSplit s1 '+').getLast?).getD "") ≠ "")
    (hmods : ∀ m, m ∈ (jsSplit s1 '+').dropLast ↔ m ∈ (jsSplit s2 '+').dropLast) :
    parseMatchString isMac s1 = parseMatchString isMac s2 ∧
    ∀ event, keymatch isMac event s1 = keymatch isMac event s2 := by
  have hm := mem_map_iff_of_mem_iff hmods jsToLower
  have hps : parseMatchString isMac s1 = parseMatchString isMac s2 := by
    simp only [parseMatchString, if_neg hb1, if_neg hb2]
    rw [← hkey, if_neg hk, if_neg hk,
      foldl_applyModifier, foldl_applyModifier,
      any_congr_of_mem_iff hm (setsCtrl isMac),
      any_congr_of_mem_iff hm (setsAlt isMac),
      any_congr_of_mem_iff hm (setsShift isMac),
      any_congr_of_mem_iff hm (setsMeta isMac)]
  refine ⟨hps, fun event => ?_⟩
  unfold keymatch
  rw [hps]

theorem parse_insensitive_to_modifier_multiset_witness :
    parseMatchString false "Ctrl+Shift+K" =
      parseMatchString false "Shift+Ctrl+Ctrl+K" :=
  (parse_insensitive_to_modifier_multiset false "Ctrl+Shift+K"
    "Shift+Ctrl+Ctrl+K" (by decide) (by decide) (by decide) (by decide)
    (fun m => by
      have e1 : (jsSplit "Ctrl+Shift+K" '+').dropLast = ["Ctrl", "Shift"] := by
        decide
      have e2 : (jsSplit "Shift+Ctrl+Ctrl+K" '+').dropLast =
          ["Shift", "Ctrl", "Ctrl"] := by
        decide
      rw [e1, e2]
      simp only [List.mem_cons, List.not_mem_nil, or_false]
      tauto)).1

theorem keyMapLookup_undefined (n : String) (h1 : n ∉ objectPrototypeProps)
    (h2 : keyMap n = none) : keyMapLookup n = .undefined := by
  unfold keyMap at h2
  unfold keyMapLookup
  split_ifs at h2 ⊢
  simp_all

theorem keyMapLookup_of_some (n v : String) (h : keyMap n = some v) :
    keyMapLookup n = .str v := by
  unfold keyMap at h
  unfold keyMapLookup
  split_ifs at h ⊢ <;> simp_all

theorem keyMap_value_nonempty (n v : String) (h : keyMap n = some v) :
    v ≠ "" := by
  unfold keyMap at h
  split_ifs at h <;> simp_all <;> (subst h; decide)

theorem normalizeKeyJs_of_undefined (k : String)
    (h : keyMapLookup (jsToLower k) = .undefined) :
    normalizeKeyJs k = .str (jsToLower k) := by
  simp [normalizeKeyJs, h, JsValue.truthy]

theorem normalizeKeyJs_of_some (k v : String)
    (h : keyMap (jsToLower k) = some v) (hv : v ≠ "") :
    normalizeKeyJs k = .str v := by
  have hl := keyMapLookup_of_some (jsToLower k) v h
  simp [normalizeKeyJs, hl, JsValue.truthy, hv]

theorem normalizeKeyJs_of_proto (k : String)
    (h : jsToLower k ∈ objectPrototypeProps) :
    normalizeKeyJs k = .protoValue (jsToLower k) := by
  have hl : keyMapLookup (jsToLower k) = .protoValue (jsToLower k) := by
    unfold keyMapLookup
    split_ifs with a1 a2 a3 a4 a5
    · rw [a1] at h; exact absurd h (by decide)
    · rw [a2] at h; exact absurd h (by decide)
    · rw [a3] at h; exact absurd h (by decide)
    · rw [a4] at h; exact absurd h (by decide)
    · rw [a5] at h; exact absurd h (by decide)
    · rfl
  simp [normalizeKeyJs, hl, JsValue.truthy]

/-- Away from the inherited prototype property names the faithful lookup and
the own-property restriction agree, so the string-valued normalizer used by
the other claims is exact there. -/
theorem normalizeKeyJs_agrees (k : String)
    (h : jsToLower k ∉ objectPrototypeProps) :
    normalizeKeyJs k = .str (normalizeKey k) := by
  match h2 : keyMap (jsToLower k) with
  | none =>
    rw [normalizeKeyJs_of_undefined k (keyMapLookup_undefined (jsToLower k) h h2)]
    simp [normalizeKey, h2]
  | some v =>
    rw [normalizeKeyJs_of_some k v h2 (keyMap_value_nonempty (jsToLower k) v h2)]
    simp [normalizeKey, h2]

theorem normalizedEventKeyJs_agrees (event : KeyboardEvent)
    (h : jsToLower event.key ∉ objectPrototypeProps) :
    normalizedEventKeyJs event = .str (normalizedEventKey event) := by
  cases he : event.code with
  | none =>
    simp [normalizedEventKeyJs, normalizedEventKey, he,
      normalizeKeyJs_agrees event.key h]
  | some c =>
    cases hl : letterCodeChar c.data with
    | some u => simp [normalizedEventKeyJs, normalizedEventKey, he, hl]
    | none =>
      cases hd : digitCodeChar c.data with
      | some u => simp [normalizedEventKeyJs, normalizedEventKey, he, hl, hd]
      | none =>
        simp [normalizedEventKeyJs, normalizedEventKey, he, hl, hd,
          normalizeKeyJs_agrees event.key h]

theorem keymatchJs_agrees (isMac : Bool) (event : KeyboardEvent) (s : String)
    (h : jsToLower event.key ∉ objectPrototypeProps) :
    keymatchJs isMac event s = keymatch isMac event s := by
  unfold keymatchJs keymatch
  cases hp : parseMatchString isMac s with
  | error e => rfl
  | ok p =>
    rw [normalizedEventKeyJs_agrees event h]
    have hb : ((normalizedEventKey event) == p.key) =
        decide (normalizedEventKey event = p.key) := by
      rw [Bool.eq_iff_iff]
      simp
    simp [JsValue.strictEqStr, hb]

/-- Claim C8, counterexample: the key 'constructor' is not in the alias
table, yet it does not pass through the normalizer unchanged: the JS object
read finds the truthy inherited constructor property of the object
prototype, the normalizer returns that non-string value, and the event with
logical key 'constructor' does not even match the accelerator
"constructor". -/
theorem constructor_key_does_not_pass_through :
    keyMap "constructor" = none ∧
    normalizeKeyJs "constructor" = .protoValue "constructor" ∧
    normalizeKeyJs "constructor" ≠ .str "constructor" ∧
    keymatchJs false ({ key := "constructor" }) "constructor" = .ok false :=
  ⟨by decide, by decide, by decide, by decide⟩

/-- Claim C8, amended: when the event's code identifies neither a letter nor
a digit position, the normalized event key is the reported logical key,
lower-cased and passed through the fixed alias table (space to "space", the
four arrow names to their directional short forms); every key outside the
table passes through lower-cased unchanged unless its lower-cased form is an
inherited object-prototype property name (such as 'constructor' or
'__proto__'), in which case the lookup yields the truthy inherited
non-string value instead; concretely the ArrowUp event matches Up and the
space event matches Space. -/
theorem fallback_alias_with_prototype_exception (event : KeyboardEvent)
    (h : ∀ c, event.code = some c →
      letterCodeChar c.data = none ∧ digitCodeChar c.data = none) :
    normalizedEventKeyJs event = normalizeKeyJs event.key ∧
    (∀ k, jsToLower k ∉ objectPrototypeProps → keyMap (jsToLower k) = none →
      normalizeKeyJs k = .str (jsToLower k)) ∧
    (∀ k, jsToLower k ∈ objectPrototypeProps →
      normalizeKeyJs k = .protoValue (jsToLower k)) ∧
    normalizeKeyJs " " = .str "space" ∧
    normalizeKeyJs "ArrowUp" = .str "up" ∧
    normalizeKeyJs "ArrowDown" = .str "down" ∧
    normalizeKeyJs "ArrowLeft" = .str "left" ∧
    normalizeKeyJs "ArrowRight" = .str "right" ∧
    (∀ b, keymatchJs b ({ key := "ArrowUp" }) "Up" = .ok true) ∧
    (∀ b, keymatchJs b ({ key := " " }) "Space" = .ok true) := by
  refine ⟨?_,
    fun k h1 h2 => normalizeKeyJs_of_undefined k (keyMapLookup_undefined (jsToLower k) h1 h2),
    fun k hk => normalizeKeyJs_of_proto k hk,
    by decide, by decide, by decide, by decide, by decide,
    fun b => by cases b <;> decide, fun b => by cases b <;> decide⟩
  match he : event.code with
  | none => simp [normalizedEventKeyJs, he]
  | some c =>
    have hc := h c he
    simp [normalizedEventKeyJs, he, hc.1, hc.2]

theorem fallback_alias_with_prototype_exception_witness :
    normalizedEventKeyJs ({ key := "ArrowUp", code := some "ArrowUp" }) =
      normalizeKeyJs "ArrowUp" :=
  (fallback_alias_with_prototype_exception
    ({ key := "ArrowUp", code := some "ArrowUp" })
    (fun c hc => by cases hc; exact ⟨rfl, rfl⟩)).1

/-- Claim C9, counterexample: the event whose logical key is 'constructor'
and which carries no code is normalized to the truthy value inherited from
the object prototype, which is not a string, so not every possible input
event produces a normalized key string. -/
theorem constructor_event_normalizes_to_non_string :
    normalizedEventKeyJs ({ key := "constructor" }) = .protoValue "constructor" ∧
    (normalizedEventKeyJs ({ key := "constructor" })).isString = false :=
  ⟨by decide, by decide⟩

/-- Claim C9, amended: the key normalizer is pure and total and never
throws — every possible input event produces exactly one normalized key
value, and the degenerate event with empty logical key and absent code
produces the empty string — but the produced value is a string only when the
lower-cased logical key is not an inherited object-prototype property name;
an event falling through to the alias lookup with such a key ('constructor'
or '__proto__' after lower-casing) receives the truthy inherited non-string
value instead. -/
theorem normalized_event_key_total_value (event : KeyboardEvent) :
    (∃ v, normalizedEventKeyJs event = v ∧
      ∀ w, normalizedEventKeyJs event = w → w = v) ∧
    (jsToLower event.key ∉ objectPrototypeProps →
      (normalizedEventKeyJs event).isString = true) ∧
    (jsToLower event.key ∈ objectPrototypeProps → event.code = none →
      normalizedEventKeyJs event = .protoValue (jsToLower event.key)) ∧
    (event.key = "" → event.code = none → normalizedEventKeyJs event = .str "") := by
  refine ⟨⟨normalizedEventKeyJs event, rfl, fun w hw => hw.symm⟩,
    fun hs => ?_, fun hm hc => ?_, fun hk hc => ?_⟩
  · rw [normalizedEventKeyJs_agrees event hs]
    rfl
  · simp [normalizedEventKeyJs, hc, normalizeKeyJs_of_proto event.key hm]
  · have h0 : normalizeKeyJs "" = .str "" := by decide
    simp [normalizedEventKeyJs, hc, hk, h0]

theorem normalized_event_key_total_value_witness :
    (normalizedEventKeyJs ({ key := "a" })).isString = true ∧
    normalizedEventKeyJs ({ key := "__proto__" }) =
      .protoValue (jsToLower "__proto__") ∧
    normalizedEventKeyJs ({ key := "" }) = .str "" :=
  ⟨(normalized_event_key_total_value ({ key := "a" })).2.1 (by decide),
   (normalized_event_key_total_value ({ key := "__proto__" })).2.2.1
     (by decide) rfl,
   (normalized_event_key_total_value ({ key := "" })).2.2.2 rfl rfl⟩
